import Mathlib

/-!
Verification of the data-cleaning and modelling pipeline of
`food_safety_analysis.py`.

The script is a linear pandas/scikit-learn pipeline.  We embed each stage
shallowly:

* a dataframe row is a record of `Option`-typed cells (a pandas cell is
  either a value or NaN/missing);
* the cleaning block (lines 21–35 of the source) becomes the pure function
  `cleanRow` / `clean`;
* the label-encoding loop (lines 90–95) becomes `labelClasses` /
  `encodeFeatures` (the `LabelEncoder` of scikit-learn assigns codes by sorted
  order of the distinct observed labels);
* `value_counts().head(10)` (line 49) becomes `valueCounts` / `topFoods`;
* `train_test_split`, `confusion_matrix` and `accuracy_score` are external
  scikit-learn routines, modelled from the spec where a claim needs them.
-/

/-- One raw row of `outbreaks.csv` as loaded into the dataframe `df`
(line 12 of the source).  Every cell of a pandas dataframe may be missing
(NaN), so each field is an `Option`. -/
structure RawRow where
  year : Option Int
  month : Option String
  state : Option String
  location : Option String
  food : Option String
  ingredient : Option String
  species : Option String
  serotypeGenotype : Option String
  status : Option String
  illnesses : Option Nat
  hospitalizations : Option Nat
  fatalities : Option Nat
deriving DecidableEq, Repr

/-- One row of `df_cleaned` after the cleaning block (lines 21–35).
The frame has the same columns plus the derived `Hospitalized` column;
cells are still `Option`-typed (being non-missing is a property the
cleaning establishes, not a typing artifact). -/
structure CleanedRow where
  year : Option Int
  month : Option String
  state : Option String
  location : Option String
  food : Option String
  ingredient : Option String
  species : Option String
  serotypeGenotype : Option String
  status : Option String
  illnesses : Option Nat
  hospitalizations : Option Nat
  fatalities : Option Nat
  hospitalized : Option Nat
deriving DecidableEq, Repr

/-- `fillna('Unknown')` on one categorical cell (line 25). -/
def fillnaStr (o : Option String) : Option String :=
  some (o.getD "Unknown")

/-- `fillna(0)` on one numeric cell (line 28). -/
def fillnaNat (o : Option Nat) : Option Nat :=
  some (o.getD 0)

/-- The lambda of line 35: `1 if x > 0 else 0`. -/
def hospitalizedLabel (x : Nat) : Nat :=
  if x > 0 then 1 else 0

/-- The cleaning block applied to one row: lines 24–28 fill the six
categorical columns with `"Unknown"` and the two numeric columns with `0`;
line 35 then derives `Hospitalized` from the (already filled)
`Hospitalizations` column.  `Year`, `Month`, `State` and `Illnesses` are
not touched by the block. -/
def cleanRow (r : RawRow) : CleanedRow :=
  { year := r.year
    month := r.month
    state := r.state
    location := fillnaStr r.location
    food := fillnaStr r.food
    ingredient := fillnaStr r.ingredient
    species := fillnaStr r.species
    serotypeGenotype := fillnaStr r.serotypeGenotype
    status := fillnaStr r.status
    illnesses := r.illnesses
    hospitalizations := fillnaNat r.hospitalizations
    fatalities := fillnaNat r.fatalities
    hospitalized := (fillnaNat r.hospitalizations).map hospitalizedLabel }

/-- The cleaned table: the cleaning block applied row by row. -/
def clean (df : List RawRow) : List CleanedRow :=
  df.map cleanRow

/-- The whole cleaning stage as a state transformer: `df_cleaned = df.copy()`
(line 21) followed by mutations of the copy only.  The first component is
the raw table as the stage leaves it; the second is `df_cleaned`. -/
def cleanStage (df : List RawRow) : List RawRow × List CleanedRow :=
  (df, clean df)

/-- A sample raw row used to witness theorems at a concrete input. -/
def sampleRow : RawRow :=
  { year := some 2010
    month := some "May"
    state := some "CA"
    location := some "Restaurant"
    food := some "Chicken"
    ingredient := none
    species := some "Salmonella"
    serotypeGenotype := none
    status := some "Confirmed"
    illnesses := some 10
    hospitalizations := some 2
    fatalities := none }

/-- A raw row whose `Location` cell is present and happens to hold the
literal string `"Unknown"`. -/
def rowUnknownLoc : RawRow :=
  { year := some 2011
    month := some "June"
    state := some "TX"
    location := some "Unknown"
    food := some "Beef"
    ingredient := none
    species := none
    serotypeGenotype := none
    status := none
    illnesses := some 3
    hospitalizations := some 0
    fatalities := some 0 }

/-- A raw row with a missing `Hospitalizations` cell. -/
def rowMissingHosp : RawRow :=
  { year := some 2012
    month := some "July"
    state := some "CA"
    location := some "Restaurant"
    food := some "Chicken"
    ingredient := none
    species := none
    serotypeGenotype := none
    status := none
    illnesses := some 5
    hospitalizations := none
    fatalities := none }

/-- C1: for every row of the cleaned table, the derived `Hospitalized`
label is `1` iff the post-imputation `Hospitalizations` count is positive;
in particular `Hospitalizations = 0` gives label `0` and
`Hospitalizations = 1` gives label `1`. -/
theorem hospitalized_iff_hospitalizations_pos :
    ∀ (df : List RawRow) (c : CleanedRow), c ∈ clean df →
      ((c.hospitalized = some 1 ↔ ∃ n, c.hospitalizations = some n ∧ 0 < n) ∧
       (c.hospitalizations = some 0 → c.hospitalized = some 0) ∧
       (c.hospitalizations = some 1 → c.hospitalized = some 1)) := by
  intro df c hc
  rcases List.mem_map.mp hc with ⟨r, _, rfl⟩
  refine ⟨?_, ?_, ?_⟩
  · constructor
    · intro h
      refine ⟨r.hospitalizations.getD 0, rfl, ?_⟩
      by_contra hn
      have h0 : r.hospitalizations.getD 0 = 0 := Nat.eq_zero_of_not_pos hn
      simp [cleanRow, fillnaNat, hospitalizedLabel, h0] at h
    · rintro ⟨n, hn, hpos⟩
      have : r.hospitalizations.getD 0 = n := by
        simpa [cleanRow, fillnaNat] using hn
      simp [cleanRow, fillnaNat, hospitalizedLabel, this, hpos]
  · intro h
    have : r.hospitalizations.getD 0 = 0 := by
      simpa [cleanRow, fillnaNat] using h
    simp [cleanRow, fillnaNat, hospitalizedLabel, this]
  · intro h
    have : r.hospitalizations.getD 0 = 1 := by
      simpa [cleanRow, fillnaNat] using h
    simp [cleanRow, fillnaNat, hospitalizedLabel, this]

/-- Witness for C1 at a concrete table: the sample row has 2
hospitalizations and is labelled `1`. -/
theorem hospitalized_iff_hospitalizations_pos_witness :
    (cleanRow sampleRow).hospitalized = some 1 :=
  (hospitalized_iff_hospitalizations_pos [sampleRow] (cleanRow sampleRow)
      (List.mem_map_of_mem cleanRow (List.mem_singleton.mpr rfl))).1.mpr
    ⟨2, by simp [sampleRow, cleanRow, fillnaNat], by decide⟩

/-- C10: a raw row whose `Hospitalizations` cell is absent is imputed to
`0` before the label is derived, so its `Hospitalized` label is `0`. -/
theorem missing_hospitalizations_labelled_zero :
    ∀ r : RawRow, r.hospitalizations = none →
      (cleanRow r).hospitalized = some 0 := by
  intro r h
  simp [cleanRow, fillnaNat, hospitalizedLabel, h]

/-- Witness for C10: the concrete row with a missing count is labelled `0`. -/
theorem missing_hospitalizations_labelled_zero_witness :
    (cleanRow rowMissingHosp).hospitalized = some 0 :=
  missing_hospitalizations_labelled_zero rowMissingHosp rfl

/-- The property C2 claims of the string-cell imputation, stated of one
cell: the cleaned cell equals `"Unknown"` iff the raw cell was missing. -/
def unknownIffMissing (o : Option String) : Prop :=
  fillnaStr o = some "Unknown" ↔ o = none

/-- A filled string cell equals `"Unknown"` exactly when the raw cell was
missing or itself held the literal string `"Unknown"`. -/
theorem fillnaStr_eq_unknown_iff (o : Option String) :
    fillnaStr o = some "Unknown" ↔ o = none ∨ o = some "Unknown" := by
  cases o <;> simp [fillnaStr]

/-- Counterexample to C2 as stated: a raw row whose `Location` cell is
present and already holds the literal string `"Unknown"`.  The cleaned
cell equals `"Unknown"` although the raw cell was not missing, so the
"equals Unknown iff the raw field was missing" biconditional fails. -/
theorem unknown_iff_missing_fails :
    ¬ ((cleanRow rowUnknownLoc).location = some "Unknown" ↔
        rowUnknownLoc.location = none) := by
  simp [cleanRow, rowUnknownLoc, fillnaStr]

/-- C2 (amended): after cleaning, each of the six categorical fields is
non-missing, equals the raw value whenever the raw cell was present, and
equals `"Unknown"` iff the raw cell was missing or itself held the literal
string `"Unknown"`; `Hospitalizations` and `Fatalities` equal `0` when the
raw cell was missing and the raw value otherwise. -/
theorem cleaned_fields_unknown_and_zero :
    ∀ r : RawRow,
      ((cleanRow r).location.isSome ∧ (cleanRow r).food.isSome ∧
       (cleanRow r).ingredient.isSome ∧ (cleanRow r).species.isSome ∧
       (cleanRow r).serotypeGenotype.isSome ∧ (cleanRow r).status.isSome) ∧
      (∀ v, (r.location = some v → (cleanRow r).location = some v) ∧
            (r.food = some v → (cleanRow r).food = some v) ∧
            (r.ingredient = some v → (cleanRow r).ingredient = some v) ∧
            (r.species = some v → (cleanRow r).species = some v) ∧
            (r.serotypeGenotype = some v →
              (cleanRow r).serotypeGenotype = some v) ∧
            (r.status = some v → (cleanRow r).status = some v)) ∧
      (((cleanRow r).location = some "Unknown" ↔
          r.location = none ∨ r.location = some "Unknown") ∧
       ((cleanRow r).food = some "Unknown" ↔
          r.food = none ∨ r.food = some "Unknown") ∧
       ((cleanRow r).ingredient = some "Unknown" ↔
          r.ingredient = none ∨ r.ingredient = some "Unknown") ∧
       ((cleanRow r).species = some "Unknown" ↔
          r.species = none ∨ r.species = some "Unknown") ∧
       ((cleanRow r).serotypeGenotype = some "Unknown" ↔
          r.serotypeGenotype = none ∨ r.serotypeGenotype = some "Unknown") ∧
       ((cleanRow r).status = some "Unknown" ↔
          r.status = none ∨ r.status = some "Unknown")) ∧
      ((r.hospitalizations = none → (cleanRow r).hospitalizations = some 0) ∧
       (r.fatalities = none → (cleanRow r).fatalities = some 0) ∧
       (∀ n, (r.hospitalizations = some n →
                (cleanRow r).hospitalizations = some n) ∧
             (r.fatalities = some n → (cleanRow r).fatalities = some n))) := by
  intro r
  refine ⟨?_, ?_, ?_, ?_⟩
  · simp [cleanRow, fillnaStr]
  · intro v
    refine ⟨?_, ?_, ?_, ?_, ?_, ?_⟩ <;>
      { intro h; simp [cleanRow, fillnaStr, h] }
  · exact ⟨fillnaStr_eq_unknown_iff r.location, fillnaStr_eq_unknown_iff r.food,
      fillnaStr_eq_unknown_iff r.ingredient, fillnaStr_eq_unknown_iff r.species,
      fillnaStr_eq_unknown_iff r.serotypeGenotype,
      fillnaStr_eq_unknown_iff r.status⟩
  · refine ⟨?_, ?_, ?_⟩
    · intro h; simp [cleanRow, fillnaNat, h]
    · intro h; simp [cleanRow, fillnaNat, h]
    · intro n
      exact ⟨fun h => by simp [cleanRow, fillnaNat, h],
             fun h => by simp [cleanRow, fillnaNat, h]⟩

/-- Witness for C2 (amended) at a concrete row: the row whose raw
`Location` already holds `"Unknown"` keeps that value, and its missing
`Status` cell becomes `"Unknown"`. -/
theorem cleaned_fields_unknown_and_zero_witness :
    (cleanRow rowUnknownLoc).location = some "Unknown" ∧
    (cleanRow rowUnknownLoc).status = some "Unknown" :=
  ⟨(cleaned_fields_unknown_and_zero rowUnknownLoc).2.2.1.1.mpr (Or.inr rfl),
   (cleaned_fields_unknown_and_zero rowUnknownLoc).2.2.1.2.2.2.2.2.mpr
     (Or.inl rfl)⟩

/-- C3: the cleaning stage leaves the raw table exactly as it was, the
cleaned table has the same number of rows, and row `i` of the cleaned
table is exactly the cleaning of row `i` of the raw table (one output row
per input row, none dropped). -/
theorem clean_preserves_rows :
    ∀ df : List RawRow,
      (cleanStage df).1 = df ∧
      ((cleanStage df).2).length = df.length ∧
      ∀ i : Nat, ((cleanStage df).2)[i]? = (df[i]?).map cleanRow := by
  intro df
  refine ⟨rfl, by simp [cleanStage, clean], ?_⟩
  intro i
  simp [cleanStage, clean]

/-- C4: on a raw row that conforms to the Raw Record schema (`Year`,
`Month`, `State` and `Illnesses` present — the schema marks only the other
fields as possibly absent), the cleaned row has no missing value in any
field used downstream: the model features `Year`, `Month`, `State`,
`Location`, `Food`, plus `Illnesses`, `Hospitalizations` and the derived
`Hospitalized` label. -/
theorem cleaned_no_missing_downstream :
    ∀ r : RawRow, r.year.isSome → r.month.isSome → r.state.isSome →
      r.illnesses.isSome →
      ((cleanRow r).year.isSome ∧ (cleanRow r).month.isSome ∧
       (cleanRow r).state.isSome ∧ (cleanRow r).location.isSome ∧
       (cleanRow r).food.isSome ∧ (cleanRow r).illnesses.isSome ∧
       (cleanRow r).hospitalizations.isSome ∧
       (cleanRow r).hospitalized.isSome) := by
  intro r h1 h2 h3 h4
  simpa [cleanRow, fillnaStr, fillnaNat] using ⟨h1, h2, h3, h4⟩

/-- Witness for C4: the sample row conforms to the schema and its cleaned
row has every downstream field present. -/
theorem cleaned_no_missing_downstream_witness :
    (cleanRow sampleRow).year.isSome ∧ (cleanRow sampleRow).month.isSome ∧
    (cleanRow sampleRow).state.isSome ∧ (cleanRow sampleRow).location.isSome ∧
    (cleanRow sampleRow).food.isSome ∧ (cleanRow sampleRow).illnesses.isSome ∧
    (cleanRow sampleRow).hospitalizations.isSome ∧
    (cleanRow sampleRow).hospitalized.isSome :=
  cleaned_no_missing_downstream sampleRow rfl rfl rfl rfl

/-- `LabelEncoder.fit` (lines 90–95): the fitted classes are the distinct
observed values of the column, in sorted lexical order. -/
def labelClasses (values : List String) : List String :=
  (values.dedup).insertionSort (· ≤ ·)

/-- `LabelEncoder.transform` of one value: its index in the fitted class
list (the first index at which it occurs). -/
def codeOf : List String → String → Nat
  | [], _ => 0
  | c :: cs, v => if v = c then 0 else codeOf cs v + 1

/-- Looking up the code of a listed value recovers the value
(`inverse_transform ∘ transform = id` on the class list). -/
theorem codeOf_getElem? (cs : List String) (v : String) (h : v ∈ cs) :
    cs[codeOf cs v]? = some v := by
  induction cs with
  | nil => exact absurd h (List.not_mem_nil v)
  | cons c cs ih =>
    by_cases hv : v = c
    · subst hv; simp [codeOf]
    · have hm : v ∈ cs := by
        rcases List.mem_cons.mp h with h1 | h1
        · exact absurd h1 hv
        · exact h1
      simp [codeOf, hv, ih hm]

/-- The code of a listed value is a valid index into the class list. -/
theorem codeOf_lt_length (cs : List String) (v : String) (h : v ∈ cs) :
    codeOf cs v < cs.length :=
  (List.getElem?_eq_some.mp (codeOf_getElem? cs v h)).1

/-- Every observed value is among the fitted classes and vice versa. -/
theorem mem_labelClasses (values : List String) (v : String) :
    v ∈ labelClasses values ↔ v ∈ values := by
  simp [labelClasses, List.mem_insertionSort, List.mem_dedup]

/-- The fitted class list has no duplicates. -/
theorem labelClasses_nodup (values : List String) :
    (labelClasses values).Nodup :=
  ((List.perm_insertionSort (· ≤ ·) values.dedup).nodup_iff).mpr
    (List.nodup_dedup values)

/-- The fitted class list is weakly sorted. -/
theorem labelClasses_sorted_le (values : List String) :
    (labelClasses values).Pairwise (· ≤ ·) :=
  List.sorted_insertionSort (· ≤ ·) values.dedup

/-- The fitted class list is strictly sorted: codes are assigned by
sorted lexical order of the labels. -/
theorem labelClasses_sorted_lt (values : List String) :
    (labelClasses values).Pairwise (· < ·) :=
  ((labelClasses_sorted_le values).and (labelClasses_nodup values)).imp
    (fun h => lt_of_le_of_ne h.1 h.2)

/-- One row of the model-feature frame `df_model[features]` (line 98),
with its five columns `Year, Month, State, Location, Food` (line 86). -/
structure FeatRow where
  year : Int
  month : String
  state : String
  location : String
  food : String
deriving DecidableEq, Repr

/-- The encoding loop of lines 90–95: each of the four category-typed
columns is label-encoded against its own full observed column; `Year` is
not category-typed, so the loop leaves it unchanged. -/
def encodeFeatures (rows : List FeatRow) : List (Int × Nat × Nat × Nat × Nat) :=
  rows.map (fun r =>
    (r.year,
     codeOf (labelClasses (rows.map FeatRow.month)) r.month,
     codeOf (labelClasses (rows.map FeatRow.state)) r.state,
     codeOf (labelClasses (rows.map FeatRow.location)) r.location,
     codeOf (labelClasses (rows.map FeatRow.food)) r.food))

/-- C5: the fitted encoding is a bijection on the observed category set —
distinct observed categories get distinct codes, every observed category
is mapped (its code is a valid index of the class list, of which it is a
member), decoding the assigned code recovers the category exactly, the
classes carrying the codes are in strictly sorted lexical order — and the
`Year` column passes through the encoding stage unchanged. -/
theorem label_encoding_bijection :
    (∀ (values : List String) (u v : String), u ∈ values → v ∈ values →
       (codeOf (labelClasses values) u = codeOf (labelClasses values) v ↔
         u = v)) ∧
    (∀ (values : List String) (v : String), v ∈ values →
       v ∈ labelClasses values ∧
       codeOf (labelClasses values) v < (labelClasses values).length ∧
       (labelClasses values)[codeOf (labelClasses values) v]? = some v) ∧
    (∀ values : List String, (labelClasses values).Pairwise (· < ·)) ∧
    (∀ rows : List FeatRow,
       (encodeFeatures rows).map Prod.fst = rows.map FeatRow.year) := by
  refine ⟨?_, ?_, labelClasses_sorted_lt, ?_⟩
  · intro values u v hu hv
    constructor
    · intro h
      have h1 := codeOf_getElem? (labelClasses values) u
        ((mem_labelClasses values u).mpr hu)
      have h2 := codeOf_getElem? (labelClasses values) v
        ((mem_labelClasses values v).mpr hv)
      rw [h] at h1
      exact Option.some_injective _ (h1.symm.trans h2)
    · intro h; rw [h]
  · intro values v hv
    have hm := (mem_labelClasses values v).mpr hv
    exact ⟨hm, codeOf_lt_length _ _ hm, codeOf_getElem? _ _ hm⟩
  · intro rows
    simp [encodeFeatures, List.map_map]

/-- Witness for C5 on the concrete column `["b", "a", "b"]`: the classes
are `["a", "b"]`, the code of `"b"` is `1`, and decoding recovers `"b"`. -/
theorem label_encoding_bijection_witness :
    "b" ∈ labelClasses ["b", "a", "b"] ∧
    codeOf (labelClasses ["b", "a", "b"]) "b" <
      (labelClasses ["b", "a", "b"]).length ∧
    (labelClasses ["b", "a", "b"])[codeOf (labelClasses ["b", "a", "b"]) "b"]? =
      some "b" :=
  label_encoding_bijection.2.1 ["b", "a", "b"] "b" (by decide)

/-- A linear congruential step, driving the modelled seeded shuffle. -/
def lcgNext (s : Nat) : Nat := (s * 1103515245 + 12345) % 2 ^ 31

/-- Swap two positions of an array when both are in bounds. -/
def swapIdx (a : Array Nat) (i j : Nat) : Array Nat :=
  if h1 : i < a.size then
    if h2 : j < a.size then a.swap ⟨i, h1⟩ ⟨j, h2⟩ else a
  else a

/-- One Fisher–Yates pass over positions `k, k-1, …, 1`, consuming the
pseudo-random stream `s`. -/
def shuffleAux : Nat → Array Nat → Nat → Array Nat
  | 0, a, _ => a
  | i + 1, a, s => shuffleAux i (swapIdx a (i + 1) (s % (i + 2))) (lcgNext s)

/-- Modelled from the spec: the seeded shuffle inside the scikit-learn
routine `train_test_split` (an external library routine, not part of this
repository).  Per §4.5 the split is "a seeded random shuffle-split at the
given ratio (no stratification; must be reproducible given the same seed
and row order)"; we realise the shuffle as a Fisher–Yates pass over the
row indices driven by a linear congruential generator seeded from the
`random_state` argument — a deterministic function of the row count and
the seed, which is all the claims rely on. -/
def shuffledIndices (n seed : Nat) : List Nat :=
  (shuffleAux (n - 1) (Array.range n) (lcgNext seed)).toList

/-- Modelled from the spec: `train_test_split` restricted to the row-index
partition it induces on `n` rows at ratio `testNum/testDen` with the given
seed.  The first component is the train index list, the second the
held-out (test) index list. -/
def trainTestSplitIdx (n testNum testDen seed : Nat) : List Nat × List Nat :=
  let perm := shuffledIndices n seed
  let nTest := (n * testNum + (testDen - 1)) / testDen
  (perm.drop nTest, perm.take nTest)

/-- An integer `random_state` makes the library build a fresh generator
from that integer; only `random_state=None` would fall back to the ambient
global generator state. -/
def resolveSeed (globalState : Nat) (randomState : Option Nat) : Nat :=
  match randomState with
  | some s => s
  | none => globalState

/-- Select the rows of a table at the given index list. -/
def selectRows {α : Type} (X : List α) (idx : List Nat) : List α :=
  idx.filterMap (fun i => X[i]?)

/-- Modelled from the spec: the full `train_test_split` call on a feature
matrix `X` and label vector `y`, under an ambient global generator state
`g` (used only when no integer seed is passed).  Returns
`(X_train, X_test, y_train, y_test)`. -/
def trainTestSplitData {α β : Type} (g : Nat) (X : List α) (y : List β)
    (testNum testDen : Nat) (randomState : Option Nat) :
    List α × List α × List β × List β :=
  let p := trainTestSplitIdx X.length testNum testDen (resolveSeed g randomState)
  (selectRows X p.1, selectRows X p.2, selectRows y p.1, selectRows y p.2)

/-- The shuffle never changes the number of indices. -/
theorem size_shuffleAux : ∀ (k : Nat) (a : Array Nat) (s : Nat),
    (shuffleAux k a s).size = a.size := by
  intro k
  induction k with
  | zero => intro a s; rfl
  | succ i ih =>
    intro a s
    rw [shuffleAux, ih]
    unfold swapIdx
    split <;> [skip; rfl]
    split <;> simp

/-- The shuffled index list has exactly `n` entries. -/
theorem length_shuffledIndices (n seed : Nat) :
    (shuffledIndices n seed).length = n := by
  simp [shuffledIndices, size_shuffleAux]

/-- Train and test indices together are a permutation of the shuffled
index list: the split partitions the rows. -/
theorem trainTestSplitIdx_partition (n testNum testDen seed : Nat) :
    List.Perm
      ((trainTestSplitIdx n testNum testDen seed).1 ++
        (trainTestSplitIdx n testNum testDen seed).2)
      (shuffledIndices n seed) := by
  have h := List.take_append_drop ((n * testNum + (testDen - 1)) / testDen)
    (shuffledIndices n seed)
  have hp := @List.perm_append_comm Nat
    ((shuffledIndices n seed).drop ((n * testNum + (testDen - 1)) / testDen))
    ((shuffledIndices n seed).take ((n * testNum + (testDen - 1)) / testDen))
  rw [h] at hp
  exact hp

/-- C6: with an integer seed, `train_test_split` is a deterministic
function of its inputs — two runs with the same matrix, label vector,
ratio 0.3 and seed 42 yield identical outputs regardless of the ambient
generator states the two runs happen under, and in particular
the induced train/test row-index partitions agree. -/
theorem split_deterministic :
    ∀ {α β : Type} (X : List α) (y : List β) (g g' : Nat),
      trainTestSplitData g X y 3 10 (some 42) =
        trainTestSplitData g' X y 3 10 (some 42) ∧
      trainTestSplitIdx X.length 3 10 42 =
        trainTestSplitIdx X.length 3 10 42 := by
  intro α β X y g g'
  exact ⟨rfl, rfl⟩

/-- The split invoked on line 100 for the tree model: `test_size=0.3`,
`random_state=42` on the unscaled matrix, restricted to row indices. -/
def treeSplitIndices (n : Nat) : List Nat × List Nat :=
  trainTestSplitIdx n 3 10 42

/-- The split invoked on line 155 for the network model: `test_size=0.3`,
`random_state=42` on the scaled matrix, restricted to row indices. -/
def networkSplitIndices (n : Nat) : List Nat × List Nat :=
  trainTestSplitIdx n 3 10 42

/-- Counterexample to C7 as stated: on a concrete 5-row dataset the two
independently invoked splits produce the SAME held-out row-index set (here
`[1, 3]`), not different ones — both calls pass the same row count, ratio
and integer seed, and the split is deterministic in those inputs. -/
theorem tree_network_heldout_equal_at_five :
    (treeSplitIndices 5).2 = (networkSplitIndices 5).2 ∧
    (treeSplitIndices 5).2 = [1, 3] :=
  ⟨rfl, by decide⟩

/-- C7 (amended): because both invocations use the same ratio and seed on
tables with the same rows in the same order, the tree and network models
ARE evaluated on identical held-out row-index sets; only the feature
values differ between the two paths (scaled versus unscaled). -/
theorem tree_network_same_heldout :
    ∀ n : Nat, treeSplitIndices n = networkSplitIndices n ∧
      (treeSplitIndices n).2 = (networkSplitIndices n).2 :=
  fun _ => ⟨rfl, rfl⟩

/-- Count the evaluation rows with a given actual/predicted label pair. -/
def countPairs (yTrue yPred : List Nat) (a p : Nat) : Nat :=
  ((yTrue.zip yPred).filter (fun q => q.1 == a && q.2 == p)).length

/-- Modelled from the spec: `confusion_matrix` (scikit-learn, external to
this repository) on the binary labels of this pipeline — a 2×2 integer
grid with rows indexed by the actual class and columns by the predicted
class, class order `[No Hospitalization, Hospitalization]`, i.e. `[0, 1]`. -/
def confusionMatrix (yTrue yPred : List Nat) : List (List Nat) :=
  [[countPairs yTrue yPred 0 0, countPairs yTrue yPred 0 1],
   [countPairs yTrue yPred 1 0, countPairs yTrue yPred 1 1]]

/-- Modelled from the spec: `accuracy_score` (scikit-learn, external to
this repository) — the fraction of evaluation rows whose predicted label
equals the actual label. -/
def accuracyScore (yTrue yPred : List Nat) : ℚ :=
  (((yTrue.zip yPred).filter (fun q => q.1 == q.2)).length : ℚ) /
    (yTrue.length : ℚ)

/-- C8: on `y_test = [0,1,1,0]` and `y_pred = [0,1,0,0]` the confusion
matrix equals `[[2,0],[1,1]]` and the accuracy equals `0.75`. -/
theorem confusion_and_accuracy_scenario :
    confusionMatrix [0, 1, 1, 0] [0, 1, 0, 0] = [[2, 0], [1, 1]] ∧
    accuracyScore [0, 1, 1, 0] [0, 1, 0, 0] = 3 / 4 := by
  constructor
  · rfl
  · show (((([(0, 0), (1, 1), (1, 0), (0, 0)] :
        List (Nat × Nat)).filter (fun q => q.1 == q.2)).length : ℚ)) / 4 = 3 / 4
    norm_num

/-- Accumulator pass listing each distinct value of a column at its first
occurrence, in encounter order (`seen` holds the keys already emitted). -/
def firstSeenAux (seen : List String) : List String → List String
  | [] => []
  | x :: xs =>
      if x ∈ seen then firstSeenAux seen xs
      else x :: firstSeenAux (x :: seen) xs

/-- The distinct values of a column in first-encounter (insertion) order. -/
def firstSeen (xs : List String) : List String :=
  firstSeenAux [] xs

/-- The count table of a column: one `(value, occurrence count)` pair per
distinct value, keys in first-encounter order. -/
def countsList (xs : List String) : List (String × Nat) :=
  (firstSeen xs).map (fun k => (k, xs.count k))

/-- Descending-count order on count-table entries. -/
def descCount (a b : String × Nat) : Prop := b.2 ≤ a.2

instance : DecidableRel descCount := fun a b => Nat.decLe b.2 a.2

instance : IsTotal (String × Nat) descCount :=
  ⟨fun a b => (Nat.le_total b.2 a.2).elim Or.inl Or.inr⟩

instance : IsTrans (String × Nat) descCount :=
  ⟨fun _ _ _ hab hbc => Nat.le_trans hbc hab⟩

/-- Modelled from the spec: the pandas routine `value_counts` (an external library
routine, not part of this repository) — occurrence counts of the distinct
values, ordered by count descending, "ties broken by first-encountered
order (stable count-based descending sort)" per §4.3; we realise the
stable sort as an insertion sort. -/
def valueCounts (xs : List String) : List (String × Nat) :=
  (countsList xs).insertionSort descCount

/-- The `Food` values of the rows with `Hospitalized = 1`
(`df_cleaned[df_cleaned['Hospitalized'] == 1]['Food']`, line 49). -/
def hospitalizedFoods (rows : List CleanedRow) : List String :=
  (rows.filter (fun c => c.hospitalized == some 1)).filterMap CleanedRow.food

/-- Line 49: `top_foods = …['Food'].value_counts().head(10)`. -/
def topFoods (rows : List CleanedRow) : List (String × Nat) :=
  (valueCounts (hospitalizedFoods rows)).take 10

/-- Every value emitted by the first-encounter pass occurs in the column. -/
theorem mem_of_mem_firstSeenAux :
    ∀ (xs seen : List String) (v : String),
      v ∈ firstSeenAux seen xs → v ∈ xs := by
  intro xs
  induction xs with
  | nil => intro seen v h; simp [firstSeenAux] at h
  | cons x xs ih =>
    intro seen v h
    rw [firstSeenAux] at h
    by_cases hx : x ∈ seen
    · rw [if_pos hx] at h
      exact List.mem_cons_of_mem x (ih seen v h)
    · rw [if_neg hx] at h
      rcases List.mem_cons.mp h with h1 | h1
      · exact h1 ▸ List.mem_cons_self x xs
      · exact List.mem_cons_of_mem x (ih (x :: seen) v h1)

/-- C9: the top-10 Food ranking (a) draws every listed pair from the
`Hospitalized = 1` rows, pairing each Food value with its occurrence count
over exactly those rows, (b) lists at most 10 entries, (c) lists them in
descending order of count, and (d) is computed by a stable descending
sort: a pair of equal-count entries in first-encounter order stays in that
order. -/
theorem top_foods_ranking :
    (∀ (rows : List CleanedRow) (p : String × Nat), p ∈ topFoods rows →
       p.1 ∈ hospitalizedFoods rows ∧
       p.2 = (hospitalizedFoods rows).count p.1) ∧
    (∀ rows : List CleanedRow, (topFoods rows).length ≤ 10) ∧
    (∀ rows : List CleanedRow, (topFoods rows).Pairwise descCount) ∧
    (∀ (xs : List String) (u v : String) (n : Nat),
       List.Sublist [(u, n), (v, n)] (countsList xs) →
       List.Sublist [(u, n), (v, n)] (valueCounts xs)) := by
  refine ⟨?_, ?_, ?_, ?_⟩
  · intro rows p hp
    have h1 : p ∈ valueCounts (hospitalizedFoods rows) :=
      (List.take_sublist 10 _).subset hp
    have h2 : p ∈ countsList (hospitalizedFoods rows) :=
      (List.mem_insertionSort descCount).mp h1
    rcases List.mem_map.mp h2 with ⟨k, hk, rfl⟩
    exact ⟨mem_of_mem_firstSeenAux _ [] k hk, rfl⟩
  · intro rows
    exact List.length_take_le 10 _
  · intro rows
    exact (List.sorted_insertionSort descCount _).sublist (List.take_sublist 10 _)
  · intro xs u v n h
    exact List.pair_sublist_insertionSort (Nat.le_refl n) h

/-- A cleaned-table row with `Food = "Chicken"` and one hospitalization. -/
def rowChickenOne : RawRow :=
  { year := some 2012
    month := some "July"
    state := some "CA"
    location := some "Restaurant"
    food := some "Chicken"
    ingredient := none
    species := none
    serotypeGenotype := none
    status := none
    illnesses := some 4
    hospitalizations := some 1
    fatalities := some 0 }

/-- Witness for C9 on the three-row scenario of the spec: the pair
`("Chicken", 2)` listed by the ranking is a Food of a hospitalized row and
`2` is its occurrence count among the hospitalized rows. -/
theorem top_foods_ranking_witness :
    ("Chicken", 2).1 ∈
      hospitalizedFoods (clean [sampleRow, rowUnknownLoc, rowChickenOne]) ∧
    ("Chicken", 2).2 =
      (hospitalizedFoods
        (clean [sampleRow, rowUnknownLoc, rowChickenOne])).count
        ("Chicken", 2).1 :=
  top_foods_ranking.1 (clean [sampleRow, rowUnknownLoc, rowChickenOne])
    ("Chicken", 2) (by decide)
